import Mathlib

/-!
Verification of the ksync Bundle/Snapshot Collector
(`app/collector/snapshots.go`).

The Go code is shallowly embedded: heights, bundle ids and pool counters
(Go `int64`) become `Int` (no claim exercises 64-bit overflow); fallible
operations return `Except CollectorError`; the remote pool and the remote
finalized-bundle endpoint are modelled by explicit values passed to each
operation (`PoolData`, a `List FinalizedBundle`, and function parameters
for the external JSON / storage collaborators).  Go's `%` on `int64` is
truncated remainder, embedded as `Int.tmod`; `x % 0` panics in Go, so the
branch of `GetSnapshotHeight` that evaluates it returns `none` when the
interval is zero.
-/

namespace Ksync

/-- Error taxonomy of the collector (spec section 7).  The Go code builds
errors with `fmt.Errorf`; each construction site is mapped to the named
category the spec assigns to it. -/
inductive CollectorError where
  | NetworkError
  | InvalidRuntimeError
  | ConfigParseError
  | KeyFormatError
  | UnmarshalError
  | MalformedBundleError
  | HeightNotFoundError
deriving DecidableEq

/-- Splits a character list at every `'/'`, keeping empty pieces, as Go's
`strings.Split(s, "/")` does. -/
def splitCharsOnSlash : List Char → List (List Char)
  | [] => [[]]
  | c :: rest =>
    match splitCharsOnSlash rest with
    | [] => [[c]]
    | first :: others =>
      if c = '/' then [] :: first :: others else (c :: first) :: others

/-- Value of a decimal digit character, `none` on anything else. -/
def digitVal (c : Char) : Option Nat :=
  if '0' ≤ c ∧ c ≤ '9' then some (c.toNat - '0'.toNat) else none

/-- Accumulates decimal digits, `none` on a non-digit. -/
def parseNatAux : List Char → Nat → Option Nat
  | [], acc => some acc
  | c :: rest, acc =>
    match digitVal c with
    | some d => parseNatAux rest (acc * 10 + d)
    | none => none

/-- Decimal integer parser on characters: an optional leading minus sign
followed by a nonempty digit string. -/
def parseIntChars : List Char → Option Int
  | [] => none
  | '-' :: rest =>
    if rest.isEmpty then none
    else (parseNatAux rest 0).map (fun n => -(n : Int))
  | cs => (parseNatAux cs 0).map (fun n => (n : Int))

/-- Embedding of Go's `strings.Split(s, "/")`. -/
def stringsSplit (s : String) : List String :=
  (splitCharsOnSlash s.toList).map (fun cs => String.mk cs)

/-- Embedding of Go's `strconv.ParseInt(s, 10, 64)` on the values the
claims exercise (`none` models a parse error). -/
def strconvParseInt (s : String) : Option Int :=
  parseIntChars s.toList

/-- Modelled from the spec: `utils.ParseSnapshotFromKey` is not under
`src/`; spec section 6 defines the compound key format
`"height/partIndex"`, failing with `KeyFormatError` on non-integer
components. -/
def ParseSnapshotFromKey (key : String) : Except CollectorError (Int × Int) :=
  match stringsSplit key with
  | [hs, ps] =>
    match strconvParseInt hs, strconvParseInt ps with
    | some height, some part => .ok (height, part)
    | _, _ => .error .KeyFormatError
  | _ => .error .KeyFormatError

/-- Modelled from the spec: `utils.RuntimeTendermintSsync` is not under
`src/`; the spec names the expected snapshot-pool runtime tag
"tendermint-ssync". -/
def RuntimeTendermintSsync : String := "tendermint-ssync"

/-- The fields of `types.TendermintSSyncConfig` the collector reads. -/
structure TendermintSSyncConfig where
  interval : Int
deriving DecidableEq

/-- The fields of the pool response (`poolResponse.Pool.Data`) that
`NewKyveSnapshotCollector` reads. -/
structure PoolData where
  runtime : String
  config : String
  startKey : String
  currentKey : String
  currentSummary : String
  totalBundles : Int
deriving DecidableEq

/-- Collector struct `KyveSnapshotCollector` from `app/collector/snapshots.go`. -/
structure KyveSnapshotCollector where
  poolId : Int
  chainRest : String
  earliestAvailableHeight : Int
  latestAvailableHeight : Int
  interval : Int
  totalBundles : Int
deriving DecidableEq

/-- The `latestAvailableHeight` derivation inlined in
`NewKyveSnapshotCollector` (`app/collector/snapshots.go`, the
`strings.Split` / `strconv.ParseInt` block over the current summary):
default `currentHeight - interval`, overridden to `currentHeight` when
the four-field summary reports `totalChunks == chunkIndex + 1`. -/
def deriveLatestAvailableHeight (currentSummary : String)
    (currentHeight chunkIndex interval : Int) : Int :=
  match stringsSplit currentSummary with
  | [_, _, _, s3] =>
    match strconvParseInt s3 with
    | some totalChunks =>
      if totalChunks = chunkIndex + 1 then currentHeight
      else currentHeight - interval
    | none => currentHeight - interval
  | _ => currentHeight - interval

/-- Constructor `NewKyveSnapshotCollector` from `app/collector/snapshots.go`.  The
remote pool fetch is modelled by the already-fetched `pool` argument, and
the external `encoding/json` unmarshalling of the pool config is modelled
by the `parseConfig` parameter (`none` models a JSON error). -/
def NewKyveSnapshotCollector (poolId : Int) (chainRest : String)
    (parseConfig : String → Option TendermintSSyncConfig) (pool : PoolData) :
    Except CollectorError KyveSnapshotCollector :=
  if pool.runtime ≠ RuntimeTendermintSsync then .error .InvalidRuntimeError
  else
    match parseConfig pool.config with
    | none => .error .ConfigParseError
    | some config =>
      match ParseSnapshotFromKey pool.startKey with
      | .error e => .error e
      | .ok sk =>
        match ParseSnapshotFromKey pool.currentKey with
        | .error e => .error e
        | .ok ck =>
          let latestAvailableHeight :=
            deriveLatestAvailableHeight pool.currentSummary ck.1 ck.2 config.interval
          .ok { poolId := poolId
                chainRest := chainRest
                earliestAvailableHeight := sk.1
                latestAvailableHeight := latestAvailableHeight
                interval := config.interval
                totalBundles := pool.totalBundles }

/-- Operation `GetSnapshotHeight` from `app/collector/snapshots.go`.  Go's `%` on
`int64` is truncated remainder (`Int.tmod`); when `interval = 0` the Go
expression `targetHeight % collector.interval` panics, modelled as
`none`. -/
def GetSnapshotHeight (collector : KyveSnapshotCollector)
    (targetHeight : Int) (isServeSnapshot : Bool) : Option Int :=
  if targetHeight = 0 ∨ targetHeight > collector.latestAvailableHeight then
    if isServeSnapshot ∧ collector.latestAvailableHeight > collector.interval then
      some (collector.latestAvailableHeight - collector.interval)
    else
      some collector.latestAvailableHeight
  else if collector.interval = 0 then none
  else some (targetHeight - Int.tmod targetHeight collector.interval)

instance {ε α : Type} [DecidableEq ε] [DecidableEq α] : DecidableEq (Except ε α) := fun a b =>
  match a, b with
  | .ok x, .ok y =>
    if h : x = y then .isTrue (by rw [h]) else .isFalse (by simp [h])
  | .error x, .error y =>
    if h : x = y then .isTrue (by rw [h]) else .isFalse (by simp [h])
  | .ok _, .error _ => .isFalse (by simp)
  | .error _, .ok _ => .isFalse (by simp)

/-- The field of `types.FinalizedBundle` the collector reads directly;
the bundle's payload is reached through the external storage collaborator
(`GetDataFromFinalizedBundle`), modelled as a function parameter where it
is used. -/
structure FinalizedBundle where
  toKey : String
deriving DecidableEq

/-- Embedding of `utils.GetFinalizedBundleById`: the remote pool's
finalized bundles are the list `bundles`, addressed by `bundleId` in
`[0, totalBundles)`; any other id is a failing remote lookup
(`NetworkError`). -/
def GetFinalizedBundleById (bundles : List FinalizedBundle) (bundleId : Int) :
    Except CollectorError FinalizedBundle :=
  if h : 0 ≤ bundleId ∧ bundleId.toNat < bundles.length then
    .ok (bundles.get ⟨bundleId.toNat, h.2⟩)
  else
    .error .NetworkError

/-- Modelled from the spec: `types.SnapshotDataItem` is not under `src/`;
the spec says a decoded data item carries a chunk of bytes
(`bundle[0].Value.Chunk` in the Go code). -/
structure SnapshotValue where
  chunk : List UInt8
deriving DecidableEq

/-- Modelled from the spec: a snapshot bundle's data item, of which
only the `value.chunk` field is read by the collector. -/
structure SnapshotDataItem where
  value : SnapshotValue
deriving DecidableEq

/-- Operation `GetSnapshotFromBundleId` from `app/collector/snapshots.go`.  The
external storage fetch `utils.GetDataFromFinalizedBundle` is the
`getData` parameter and the external `encoding/json` decoding of the
payload into `types.SnapshotBundle` is the `unmarshal` parameter
(`none` models a JSON error). -/
def GetSnapshotFromBundleId (getData : FinalizedBundle → Except CollectorError (List UInt8))
    (unmarshal : List UInt8 → Option (List SnapshotDataItem))
    (bundles : List FinalizedBundle) (bundleId : Int) :
    Except CollectorError SnapshotDataItem :=
  match GetFinalizedBundleById bundles bundleId with
  | .error e => .error e
  | .ok chunkBundleFinalized =>
    match getData chunkBundleFinalized with
    | .error e => .error e
    | .ok data =>
      match unmarshal data with
      | none => .error .UnmarshalError
      | some bundle =>
        if bundle.length ≠ 1 then .error .MalformedBundleError
        else
          match bundle with
          | item :: _ => .ok item
          | [] => .error .MalformedBundleError

/-- Operation `DownloadChunkFromBundleId` from `app/collector/snapshots.go`, with
the same external collaborators as `GetSnapshotFromBundleId`. -/
def DownloadChunkFromBundleId (getData : FinalizedBundle → Except CollectorError (List UInt8))
    (unmarshal : List UInt8 → Option (List SnapshotDataItem))
    (bundles : List FinalizedBundle) (bundleId : Int) :
    Except CollectorError (List UInt8) :=
  match GetFinalizedBundleById bundles bundleId with
  | .error e => .error e
  | .ok chunkBundleFinalized =>
    match getData chunkBundleFinalized with
    | .error e => .error e
    | .ok data =>
      match unmarshal data with
      | none => .error .UnmarshalError
      | some bundle =>
        if bundle.length ≠ 1 then .error .MalformedBundleError
        else
          match bundle with
          | item :: _ => .ok item.value.chunk
          | [] => .error .MalformedBundleError

/-- One step structure of the binary-search loop of
`FindSnapshotBundleIdForHeight` (`for low <= high` in the Go code),
written as structural recursion on `fuel`, the number of remaining
candidate ids `high + 1 - low`: every iteration of the Go loop shrinks
the candidate interval by at least one, so running the body with that
much fuel is exactly the Go loop, and the 0-fuel fallback is reachable
only with an already-empty interval, where the Go loop also stops with
the not-found error.  `(low + high) / 2` uses Go's truncated `int64`
division; every state reached from the collector's entry point has
`0 ≤ low ≤ high`, where truncated and floor division agree, so Lean's
`Int` division is a faithful embedding.  The inter-probe `time.Sleep`
has no observable effect on the result. -/
def findBundleIdLoopGo (bundles : List FinalizedBundle) (height : Int) :
    Nat → Int → Int → Except CollectorError Int
  | fuel + 1, low, high =>
    if low ≤ high then
      match GetFinalizedBundleById bundles ((low + high) / 2) with
      | .error e => .error e
      | .ok finalizedBundle =>
        match ParseSnapshotFromKey finalizedBundle.toKey with
        | .error e => .error e
        | .ok hk =>
          if hk.1 < height then
            findBundleIdLoopGo bundles height fuel ((low + high) / 2 + 1) high
          else if hk.1 > height then
            findBundleIdLoopGo bundles height fuel low ((low + high) / 2 - 1)
          else
            .ok ((low + high) / 2 - hk.2)
    else
      .error .HeightNotFoundError
  | 0, _, _ => .error .HeightNotFoundError

/-- The binary-search loop of the Go code, entered with fuel equal to
the initial size of the candidate interval. -/
def findBundleIdLoop (bundles : List FinalizedBundle) (height : Int)
    (low high : Int) : Except CollectorError Int :=
  findBundleIdLoopGo bundles height (high + 1 - low).toNat low high

/-- Operation `FindSnapshotBundleIdForHeight` from `app/collector/snapshots.go`:
a fast path when the requested height is the latest available one, then
binary search over `[0, totalBundles - 1]`. -/
def FindSnapshotBundleIdForHeight (collector : KyveSnapshotCollector)
    (bundles : List FinalizedBundle) (height : Int) :
    Except CollectorError Int :=
  let latestBundleId := collector.totalBundles - 1
  if height = collector.latestAvailableHeight then
    match GetFinalizedBundleById bundles latestBundleId with
    | .error e => .error e
    | .ok finalizedBundle =>
      match ParseSnapshotFromKey finalizedBundle.toKey with
      | .error e => .error e
      | .ok hk =>
        if hk.1 = height then .ok (latestBundleId - hk.2)
        else findBundleIdLoop bundles height 0 latestBundleId
  else
    findBundleIdLoop bundles height 0 latestBundleId

/-- Characterization in the spec's words (section 4.1, step 5): the
current summary marks the current snapshot complete when it splits on
"/" into exactly four fields and the fourth field parses as an integer
equal to the current part index plus one. -/
def summaryMarksComplete (currentSummary : String) (chunkIndex : Int) : Bool :=
  match stringsSplit currentSummary with
  | [_, _, _, s3] =>
    match strconvParseInt s3 with
    | some totalChunks => totalChunks == chunkIndex + 1
    | _ => false
  | _ => false

/-- The claim C3 hypothesis in the spec's words: each bundle's `toKey`
height is non-decreasing in the bundle id (checked on adjacent decoded
keys). -/
def heightsNonDecreasingB : List (Int × Int) → Bool
  | a :: b :: rest => decide (a.1 ≤ b.1) && heightsNonDecreasingB (b :: rest)
  | _ => true

/-- Index of the first decoded key with the given height (list length
when the height is absent). -/
def firstIdxOfHeight (keys : List (Int × Int)) (h : Int) : Nat :=
  match keys with
  | [] => 0
  | k :: rest => if k.1 = h then 0 else firstIdxOfHeight rest h + 1

/-- Well-formedness of the part indices of a decoded bundle sequence:
each key's part index counts its distance from the first bundle of the
same height, so the parts of one height occupy a contiguous run of
bundle ids indexed `0, 1, 2, …` as the data model describes. -/
def partsContiguousB (keys : List (Int × Int)) : Bool :=
  (List.range keys.length).all (fun i =>
    match keys.get? i with
    | some k => k.2 == (i : Int) - (firstIdxOfHeight keys k.1 : Int)
    | none => true)

/-- Pool data carrying a block-pool runtime tag instead of the expected
snapshot-pool one. -/
def poolWrongRuntime : PoolData :=
  { runtime := "tendermint-bsync", config := "", startKey := "",
    currentKey := "", currentSummary := "", totalBundles := 0 }

/-- A pool-config parser giving interval 1000, standing in for
`encoding/json` on a fixed well-formed config. -/
def pcInterval1000 : String → Option TendermintSSyncConfig := fun _ => some ⟨1000⟩

/-- A pool-config parser giving interval 0 (the JSON `{}` or an explicit
zero interval both unmarshal to this in Go). -/
def pcIntervalZero : String → Option TendermintSSyncConfig := fun _ => some ⟨0⟩

/-- A concrete collector state: bounds 0 / 4000, interval 1000, ten
bundles, as in the spec's end-to-end scenario. -/
def sampleCollector : KyveSnapshotCollector :=
  { poolId := 0, chainRest := "", earliestAvailableHeight := 0,
    latestAvailableHeight := 4000, interval := 1000, totalBundles := 10 }

/-- Pool data of the spec's summary-completion example: current key
`100/3`, summary `100/1/3/4` (the fourth field 4 equals 3 + 1). -/
def poolComplete : PoolData :=
  { runtime := "tendermint-ssync", config := "cfg", startKey := "0/0",
    currentKey := "100/3", currentSummary := "100/1/3/4", totalBundles := 10 }

/-- Pool data whose start height exceeds its current height; nothing in
the construction rejects it. -/
def poolInverted : PoolData :=
  { runtime := "tendermint-ssync", config := "cfg", startKey := "5000/0",
    currentKey := "100/0", currentSummary := "", totalBundles := 10 }

/-- Pool data with a zero-interval config and a well-formed key pair. -/
def poolZeroInterval : PoolData :=
  { runtime := "tendermint-ssync", config := "cfg", startKey := "0/0",
    currentKey := "5000/2", currentSummary := "", totalBundles := 10 }

/-- Pool data with interval-aligned start and current heights and at
least one completed snapshot between them. -/
def poolAligned : PoolData :=
  { runtime := "tendermint-ssync", config := "cfg", startKey := "1000/0",
    currentKey := "5000/2", currentSummary := "", totalBundles := 10 }

/-- The spec's ten-bundle synthetic sequence: `toKey` heights
`[1000,1000,2000,2000,3000,3000,4000,4000,4000,4000]` with part indices
`[0,1,0,1,0,1,0,1,2,3]`. -/
def specBundles : List FinalizedBundle :=
  [⟨"1000/0"⟩, ⟨"1000/1"⟩, ⟨"2000/0"⟩, ⟨"2000/1"⟩, ⟨"3000/0"⟩, ⟨"3000/1"⟩,
   ⟨"4000/0"⟩, ⟨"4000/1"⟩, ⟨"4000/2"⟩, ⟨"4000/3"⟩]

/-- The decoded keys of `specBundles`. -/
def specKeys : List (Int × Int) :=
  [(1000, 0), (1000, 1), (2000, 0), (2000, 1), (3000, 0), (3000, 1),
   (4000, 0), (4000, 1), (4000, 2), (4000, 3)]

/-- A storage collaborator returning a fixed payload, standing in for
`utils.GetDataFromFinalizedBundle`. -/
def gdOk : FinalizedBundle → Except CollectorError (List UInt8) := fun _ => .ok [7]

/-- A payload decoder producing two data items, standing in for
`encoding/json` on a malformed bundle. -/
def umTwo : List UInt8 → Option (List SnapshotDataItem) :=
  fun _ => some [⟨⟨[1]⟩⟩, ⟨⟨[2]⟩⟩]

/-- A payload decoder producing exactly one data item with chunk
`[9, 9]`. -/
def umOne : List UInt8 → Option (List SnapshotDataItem) :=
  fun _ => some [⟨⟨[9, 9]⟩⟩]

/-- A single-bundle sequence whose only `toKey` is `5/7`: its height
sequence is trivially non-decreasing but its part index does not count a
contiguous run. -/
def skewedBundles : List FinalizedBundle := [⟨"5/7"⟩]

/-- A collector matching `skewedBundles`: one total bundle, latest
available height 0 so that height 5 takes the binary-search path. -/
def skewedCollector : KyveSnapshotCollector :=
  { poolId := 0, chainRest := "", earliestAvailableHeight := 0,
    latestAvailableHeight := 0, interval := 1000, totalBundles := 1 }

theorem tmod_eq_emod_of_nonneg (a b : Int) (ha : 0 ≤ a) (hb : 0 ≤ b) :
    Int.tmod a b = a % b := by
  obtain ⟨m, rfl⟩ := Int.eq_ofNat_of_zero_le ha
  obtain ⟨n, rfl⟩ := Int.eq_ofNat_of_zero_le hb
  rfl

/-- C1 counterexample: on a collector with latest available height 4000
and interval 1000 (so `latestAvailableHeight > interval`), the call
`GetSnapshotHeight(latestAvailableHeight, true)` takes the rounding
branch, not the serve-role branch, and returns 4000 rather than the
claimed `latestAvailableHeight − interval = 3000`. -/
theorem kyveC1_cex :
    sampleCollector.latestAvailableHeight > sampleCollector.interval ∧
    GetSnapshotHeight sampleCollector sampleCollector.latestAvailableHeight true = some 4000 ∧
    GetSnapshotHeight sampleCollector sampleCollector.latestAvailableHeight true ≠
      some (sampleCollector.latestAvailableHeight - sampleCollector.interval) := by
  decide

/-- C1 (amended): the serve-role reduction applies to the
"give me the latest" request (`targetHeight = 0`, or any target above
the latest available height), not to `targetHeight =
latestAvailableHeight`: for every collector,
`GetSnapshotHeight(0, true)` returns `latestAvailableHeight − interval`
when `latestAvailableHeight > interval`, and `latestAvailableHeight`
when `latestAvailableHeight ≤ interval`. -/
theorem kyveC1 (c : KyveSnapshotCollector) :
    (c.latestAvailableHeight > c.interval →
      GetSnapshotHeight c 0 true = some (c.latestAvailableHeight - c.interval)) ∧
    (c.latestAvailableHeight ≤ c.interval →
      GetSnapshotHeight c 0 true = some c.latestAvailableHeight) := by
  refine ⟨fun h => ?_, fun h => ?_⟩ <;> unfold GetSnapshotHeight
  · rw [if_pos (Or.inl rfl), if_pos ⟨rfl, h⟩]
  · rw [if_pos (Or.inl rfl), if_neg (fun hc => absurd hc.2 (not_lt.mpr h))]

/-- C1 witness at the two concrete collectors of the amended claim. -/
theorem kyveC1_witness :
    GetSnapshotHeight sampleCollector 0 true = some (4000 - 1000) ∧
    GetSnapshotHeight (KyveSnapshotCollector.mk 0 "" 0 500 1000 0) 0 true = some 500 :=
  ⟨(kyveC1 sampleCollector).1 (by decide),
   (kyveC1 (KyveSnapshotCollector.mk 0 "" 0 500 1000 0)).2 (by decide)⟩

/-- C4 counterexample: at `k = 0`, `r = 0` the target height
`k·interval + r = 0` is the "give me the latest" sentinel, so
`GetSnapshotHeight(0, false)` returns the latest available height 4000,
not the claimed `k·interval = 0`. -/
theorem kyveC4_cex :
    0 < sampleCollector.interval ∧ (0 : Int) ≤ 0 ∧
    (0 : Int) < sampleCollector.interval ∧
    (0 : Int) * sampleCollector.interval + 0 ≤ sampleCollector.latestAvailableHeight ∧
    GetSnapshotHeight sampleCollector ((0 : Int) * sampleCollector.interval + 0) false ≠
      some ((0 : Int) * sampleCollector.interval) := by
  decide

/-- C4 (amended): for every collector with `interval > 0`, every `k` and
every `r` with `0 ≤ r < interval`, if `k·interval + r` is positive and
at most `latestAvailableHeight` then
`GetSnapshotHeight(k·interval + r, false)` returns `k·interval` (the
positivity bound excludes the target-0 sentinel the counterexample
hits). -/
theorem kyveC4 (c : KyveSnapshotCollector) (k r : Int)
    (hint : 0 < c.interval) (hr0 : 0 ≤ r) (hr : r < c.interval)
    (hpos : 0 < k * c.interval + r)
    (hle : k * c.interval + r ≤ c.latestAvailableHeight) :
    GetSnapshotHeight c (k * c.interval + r) false = some (k * c.interval) := by
  unfold GetSnapshotHeight
  rw [if_neg (by omega), if_neg (by omega : ¬ c.interval = 0)]
  have h1 : Int.tmod (k * c.interval + r) c.interval = (k * c.interval + r) % c.interval :=
    tmod_eq_emod_of_nonneg _ _ (le_of_lt hpos) (le_of_lt hint)
  have h2 : (k * c.interval + r) % c.interval = r := by
    rw [add_comm, mul_comm, Int.add_mul_emod_self_left, Int.emod_eq_of_lt hr0 hr]
  rw [h1, h2]
  congr 1
  ring

/-- C4 witness: `k = 3`, `r = 500` on the sample collector. -/
theorem kyveC4_witness :
    GetSnapshotHeight sampleCollector (3 * sampleCollector.interval + 500) false =
      some (3 * sampleCollector.interval) :=
  kyveC4 sampleCollector 3 500 (by decide) (by decide) (by decide) (by decide) (by decide)

/-- C5: for every collector, `GetSnapshotHeight(targetHeight, false)`
returns the latest available height whenever `targetHeight = 0` or
`targetHeight > latestAvailableHeight`. -/
theorem kyveC5 (c : KyveSnapshotCollector) (targetHeight : Int)
    (h : targetHeight = 0 ∨ targetHeight > c.latestAvailableHeight) :
    GetSnapshotHeight c targetHeight false = some c.latestAvailableHeight := by
  unfold GetSnapshotHeight
  rw [if_pos h, if_neg (fun hc => by simp at hc)]

/-- C5 witness at `targetHeight = 0` and at a target above the latest. -/
theorem kyveC5_witness :
    GetSnapshotHeight sampleCollector 0 false = some 4000 ∧
    GetSnapshotHeight sampleCollector 4500 false = some 4000 :=
  ⟨kyveC5 sampleCollector 0 (Or.inl rfl),
   kyveC5 sampleCollector 4500 (Or.inr (by decide))⟩

/-- C8: collector construction fails with `InvalidRuntimeError` whenever
the fetched pool's runtime differs from the expected snapshot-pool
runtime, for every config parser alike — so the runtime check precedes
config parsing and no collector value is returned. -/
theorem kyveC8 (poolId : Int) (chainRest : String)
    (parseConfig : String → Option TendermintSSyncConfig) (pool : PoolData)
    (h : pool.runtime ≠ RuntimeTendermintSsync) :
    NewKyveSnapshotCollector poolId chainRest parseConfig pool =
      .error .InvalidRuntimeError := by
  unfold NewKyveSnapshotCollector
  rw [if_pos h]

/-- C8 witness: a block-pool runtime tag is rejected even though the
supplied config parser itself would fail. -/
theorem kyveC8_witness :
    NewKyveSnapshotCollector 0 "" (fun _ => none) poolWrongRuntime =
      .error .InvalidRuntimeError :=
  kyveC8 0 "" (fun _ => none) poolWrongRuntime (by decide)

theorem deriveLatest_eq_summaryMarksComplete (currentSummary : String)
    (currentHeight chunkIndex interval : Int) :
    deriveLatestAvailableHeight currentSummary currentHeight chunkIndex interval =
      if summaryMarksComplete currentSummary chunkIndex then currentHeight
      else currentHeight - interval := by
  unfold deriveLatestAvailableHeight summaryMarksComplete
  rcases hsplit : stringsSplit currentSummary with _ | ⟨a, _ | ⟨b, _ | ⟨c, _ | ⟨d, _ | ⟨e, f⟩⟩⟩⟩⟩ <;>
    simp only [hsplit] <;> try rfl
  split
  · rename_i t hp
    simp only [hp]
    by_cases ht : t = chunkIndex + 1 <;> simp [ht]
  · rename_i hp
    simp [hp]

theorem newCollector_ok_eq (poolId : Int) (chainRest : String)
    (parseConfig : String → Option TendermintSSyncConfig) (pool : PoolData)
    (config : TendermintSSyncConfig)
    (startHeight startPart currentHeight chunkIndex : Int)
    (hrt : pool.runtime = RuntimeTendermintSsync)
    (hcfg : parseConfig pool.config = some config)
    (hstart : ParseSnapshotFromKey pool.startKey = .ok (startHeight, startPart))
    (hcur : ParseSnapshotFromKey pool.currentKey = .ok (currentHeight, chunkIndex)) :
    NewKyveSnapshotCollector poolId chainRest parseConfig pool =
      .ok { poolId := poolId
            chainRest := chainRest
            earliestAvailableHeight := startHeight
            latestAvailableHeight :=
              if summaryMarksComplete pool.currentSummary chunkIndex then currentHeight
              else currentHeight - config.interval
            interval := config.interval
            totalBundles := pool.totalBundles } := by
  unfold NewKyveSnapshotCollector
  rw [if_neg (by simp [hrt]), hcfg, hstart, hcur]
  simp only [deriveLatest_eq_summaryMarksComplete]

/-- C2: at construction, `latestAvailableHeight` is `currentHeight −
interval` by default, and `currentHeight` exactly when the pool's
current summary splits on "/" into four fields whose fourth parses as
an integer equal to the current key's part index plus one; construction
succeeds either way (a malformed or absent summary silently yields the
default, never an error). -/
theorem kyveC2 (poolId : Int) (chainRest : String)
    (parseConfig : String → Option TendermintSSyncConfig) (pool : PoolData)
    (config : TendermintSSyncConfig)
    (startHeight startPart currentHeight chunkIndex : Int)
    (hrt : pool.runtime = RuntimeTendermintSsync)
    (hcfg : parseConfig pool.config = some config)
    (hstart : ParseSnapshotFromKey pool.startKey = .ok (startHeight, startPart))
    (hcur : ParseSnapshotFromKey pool.currentKey = .ok (currentHeight, chunkIndex)) :
    (NewKyveSnapshotCollector poolId chainRest parseConfig pool).toOption.map
        (fun c => c.latestAvailableHeight) =
      some (if summaryMarksComplete pool.currentSummary chunkIndex then currentHeight
            else currentHeight - config.interval) := by
  rw [newCollector_ok_eq poolId chainRest parseConfig pool config startHeight startPart
    currentHeight chunkIndex hrt hcfg hstart hcur]
  rfl

/-- C2 witness: the spec's completion example, summary `100/1/3/4` with
current key `100/3`, gives `latestAvailableHeight = 100`. -/
theorem kyveC2_witness :
    (NewKyveSnapshotCollector 7 "rest" pcInterval1000 poolComplete).toOption.map
      (fun c => c.latestAvailableHeight) = some 100 := by
  have h := kyveC2 7 "rest" pcInterval1000 poolComplete ⟨1000⟩ 0 0 100 3 rfl rfl
    (by decide) (by decide)
  rw [h]
  decide

/-- C9 counterexample: the pool with start key `5000/0` and current key
`100/0` is accepted by construction, yet the resulting collector has
`earliestAvailableHeight = 5000 > latestAvailableHeight = −900`; the
code never checks the claimed invariant. -/
theorem kyveC9_cex :
    (NewKyveSnapshotCollector 0 "" pcInterval1000 poolInverted).toOption.map
      (fun c => decide (c.earliestAvailableHeight ≤ c.latestAvailableHeight)) =
      some false := by
  decide

/-- C9 (amended): the invariant `earliestAvailableHeight ≤
latestAvailableHeight` with the difference a multiple of `interval`
holds for every successfully constructed collector whose pool data is
well-formed: nonnegative interval dividing both decoded heights, and
start height at least one interval below current height.  (In the
model, as in the Go struct, the fields are never mutated after
construction.) -/
theorem kyveC9 (poolId : Int) (chainRest : String)
    (parseConfig : String → Option TendermintSSyncConfig) (pool : PoolData)
    (config : TendermintSSyncConfig)
    (startHeight startPart currentHeight chunkIndex : Int)
    (c : KyveSnapshotCollector)
    (hrt : pool.runtime = RuntimeTendermintSsync)
    (hcfg : parseConfig pool.config = some config)
    (hstart : ParseSnapshotFromKey pool.startKey = .ok (startHeight, startPart))
    (hcur : ParseSnapshotFromKey pool.currentKey = .ok (currentHeight, chunkIndex))
    (hint : 0 ≤ config.interval)
    (hds : config.interval ∣ startHeight)
    (hdc : config.interval ∣ currentHeight)
    (hgap : startHeight + config.interval ≤ currentHeight)
    (hok : NewKyveSnapshotCollector poolId chainRest parseConfig pool = .ok c) :
    c.earliestAvailableHeight ≤ c.latestAvailableHeight ∧
      c.interval ∣ (c.latestAvailableHeight - c.earliestAvailableHeight) := by
  rw [newCollector_ok_eq poolId chainRest parseConfig pool config startHeight startPart
    currentHeight chunkIndex hrt hcfg hstart hcur] at hok
  injection hok with h
  subst h
  constructor
  · by_cases hb : summaryMarksComplete pool.currentSummary chunkIndex <;>
      simp only [hb, if_true, if_false] <;> omega
  · by_cases hb : summaryMarksComplete pool.currentSummary chunkIndex <;>
      simp only [hb, if_true, if_false]
    · exact dvd_sub hdc hds
    · exact dvd_sub (dvd_sub hdc (dvd_refl _)) hds

/-- C9 witness: an aligned pool (start `1000/0`, current `5000/2`,
interval 1000) yields bounds 1000 and 4000 satisfying the invariant. -/
theorem kyveC9_witness :
    (KyveSnapshotCollector.mk 0 "" 1000 4000 1000 10).earliestAvailableHeight ≤
        (KyveSnapshotCollector.mk 0 "" 1000 4000 1000 10).latestAvailableHeight ∧
      (KyveSnapshotCollector.mk 0 "" 1000 4000 1000 10).interval ∣
        ((KyveSnapshotCollector.mk 0 "" 1000 4000 1000 10).latestAvailableHeight -
          (KyveSnapshotCollector.mk 0 "" 1000 4000 1000 10).earliestAvailableHeight) :=
  kyveC9 0 "" pcInterval1000 poolAligned ⟨1000⟩ 1000 0 5000 2
    (KyveSnapshotCollector.mk 0 "" 1000 4000 1000 10) rfl rfl (by decide) (by decide)
    (by decide) (by decide) (by decide) (by decide) (by decide)

/-- C10: construction accepts a zero-interval pool config without
error; on such a collector every `GetSnapshotHeight(targetHeight, _)`
with `0 < targetHeight ≤ latestAvailableHeight` reaches
`targetHeight % 0` and faults (modelled as `none`); with a nonzero
interval `GetSnapshotHeight` is total. -/
theorem kyveC10 (poolId : Int) (chainRest : String)
    (parseConfig : String → Option TendermintSSyncConfig) (pool : PoolData)
    (config : TendermintSSyncConfig)
    (startHeight startPart currentHeight chunkIndex : Int)
    (hrt : pool.runtime = RuntimeTendermintSsync)
    (hcfg : parseConfig pool.config = some config)
    (hzero : config.interval = 0)
    (hstart : ParseSnapshotFromKey pool.startKey = .ok (startHeight, startPart))
    (hcur : ParseSnapshotFromKey pool.currentKey = .ok (currentHeight, chunkIndex)) :
    ((NewKyveSnapshotCollector poolId chainRest parseConfig pool).toOption.map
        (fun c => c.interval) = some 0) ∧
    (∀ (c : KyveSnapshotCollector) (t : Int) (role : Bool), c.interval = 0 →
      0 < t → t ≤ c.latestAvailableHeight → GetSnapshotHeight c t role = none) ∧
    (∀ (c : KyveSnapshotCollector) (t : Int) (role : Bool), c.interval ≠ 0 →
      (GetSnapshotHeight c t role).isSome = true) := by
  refine ⟨?_, fun c t role h0 ht hle => ?_, fun c t role hne => ?_⟩
  · rw [newCollector_ok_eq poolId chainRest parseConfig pool config startHeight startPart
      currentHeight chunkIndex hrt hcfg hstart hcur, hzero]
    rfl
  · unfold GetSnapshotHeight
    rw [if_neg (by omega), if_pos h0]
  · unfold GetSnapshotHeight
    by_cases h1 : t = 0 ∨ t > c.latestAvailableHeight
    · rw [if_pos h1]
      split <;> rfl
    · rw [if_neg h1, if_neg hne]
      rfl

/-- C7: for every bundle id whose fetched payload decodes to a
sequence of data items, both `GetSnapshotFromBundleId` and
`DownloadChunkFromBundleId` fail with `MalformedBundleError` when the
item count differs from one, and when there is exactly one item the
former returns it and the latter returns its chunk bytes. -/
theorem kyveC7 (getData : FinalizedBundle → Except CollectorError (List UInt8))
    (unmarshal : List UInt8 → Option (List SnapshotDataItem))
    (bundles : List FinalizedBundle) (bundleId : Int)
    (fb : FinalizedBundle) (data : List UInt8) (items : List SnapshotDataItem)
    (hf : GetFinalizedBundleById bundles bundleId = .ok fb)
    (hd : getData fb = .ok data)
    (hu : unmarshal data = some items) :
    (items.length ≠ 1 →
      GetSnapshotFromBundleId getData unmarshal bundles bundleId =
          .error .MalformedBundleError ∧
        DownloadChunkFromBundleId getData unmarshal bundles bundleId =
          .error .MalformedBundleError) ∧
    (∀ item, items = [item] →
      GetSnapshotFromBundleId getData unmarshal bundles bundleId = .ok item ∧
        DownloadChunkFromBundleId getData unmarshal bundles bundleId =
          .ok item.value.chunk) := by
  unfold GetSnapshotFromBundleId DownloadChunkFromBundleId
  simp only [hf, hd, hu]
  constructor
  · intro hne
    constructor <;> rw [if_pos hne]
  · intro item hitem
    subst hitem
    constructor <;> rfl

/-- C7 witness: a two-item payload is rejected as malformed and a
one-item payload's chunk is returned. -/
theorem kyveC7_witness :
    GetSnapshotFromBundleId gdOk umTwo specBundles 0 = .error .MalformedBundleError ∧
    DownloadChunkFromBundleId gdOk umOne specBundles 0 = .ok [9, 9] := by
  have h2 := kyveC7 gdOk umTwo specBundles 0 ⟨"1000/0"⟩ [7]
    [⟨⟨[1]⟩⟩, ⟨⟨[2]⟩⟩] (by decide) rfl rfl
  have h1 := kyveC7 gdOk umOne specBundles 0 ⟨"1000/0"⟩ [7]
    [⟨⟨[9, 9]⟩⟩] (by decide) rfl rfl
  exact ⟨(h2.1 (by decide)).1, (h1.2 ⟨⟨[9, 9]⟩⟩ rfl).2⟩

/-- C10 witness: the zero-interval pool constructs successfully, and
the resulting collector faults at target 300. -/
theorem kyveC10_witness :
    ((NewKyveSnapshotCollector 0 "" pcIntervalZero poolZeroInterval).toOption.map
        (fun c => c.interval) = some 0) ∧
    GetSnapshotHeight (KyveSnapshotCollector.mk 0 "" 0 5000 0 10) 300 false = none := by
  have h := kyveC10 0 "" pcIntervalZero poolZeroInterval ⟨0⟩ 0 0 5000 2 rfl rfl rfl
    (by decide) (by decide)
  exact ⟨h.1, h.2.1 (KyveSnapshotCollector.mk 0 "" 0 5000 0 10) 300 false rfl
    (by decide) (by decide)⟩

theorem length_bundles_eq_keys (bundles : List FinalizedBundle)
    (keys : List (Int × Int))
    (hdec : bundles.map (fun b => ParseSnapshotFromKey b.toKey) = keys.map Except.ok) :
    bundles.length = keys.length := by
  have h := congrArg List.length hdec
  simpa using h

theorem decode_at (bundles : List FinalizedBundle) (keys : List (Int × Int))
    (hdec : bundles.map (fun b => ParseSnapshotFromKey b.toKey) = keys.map Except.ok)
    (i : Nat) (hib : i < bundles.length) (hik : i < keys.length) :
    ParseSnapshotFromKey (bundles.get ⟨i, hib⟩).toKey = .ok (keys.get ⟨i, hik⟩) := by
  have h := congrArg (fun l => l.get? i) hdec
  simp only [List.get?_map] at h
  rw [List.get?_eq_get hib, List.get?_eq_get hik] at h
  simpa using h

theorem fetch_ok (bundles : List FinalizedBundle) (bundleId : Int) (i : Nat)
    (hi : i < bundles.length) (hid : bundleId = (i : Int)) :
    GetFinalizedBundleById bundles bundleId = .ok (bundles.get ⟨i, hi⟩) := by
  subst hid
  unfold GetFinalizedBundleById
  rw [dif_pos ⟨by omega, by simpa using hi⟩]
  rfl

theorem hnd_cons (a b : Int × Int) (rest : List (Int × Int))
    (h : heightsNonDecreasingB (a :: b :: rest) = true) :
    a.1 ≤ b.1 ∧ heightsNonDecreasingB (b :: rest) = true := by
  unfold heightsNonDecreasingB at h
  simpa using h

theorem hnd_tail (k : Int × Int) (rest : List (Int × Int))
    (h : heightsNonDecreasingB (k :: rest) = true) :
    heightsNonDecreasingB rest = true := by
  cases rest with
  | nil => rfl
  | cons b tl => exact (hnd_cons k b tl h).2

theorem hnd_head_le (k : Int × Int) (rest : List (Int × Int))
    (h : heightsNonDecreasingB (k :: rest) = true) :
    ∀ i (hi : i < rest.length), k.1 ≤ (rest.get ⟨i, hi⟩).1 := by
  induction rest generalizing k with
  | nil => intro i hi; simp at hi
  | cons b tl ih =>
    intro i hi
    obtain ⟨hab, hrest⟩ := hnd_cons k b tl h
    cases i with
    | zero => simpa using hab
    | succ j =>
      have hj : j < tl.length := by simpa using hi
      have := ih b hrest j hj
      calc k.1 ≤ b.1 := hab
        _ ≤ _ := by simpa using this

theorem hnd_mono (keys : List (Int × Int))
    (h : heightsNonDecreasingB keys = true) :
    ∀ i j (hij : i ≤ j) (hj : j < keys.length),
      (keys.get ⟨i, Nat.lt_of_le_of_lt hij hj⟩).1 ≤ (keys.get ⟨j, hj⟩).1 := by
  induction keys with
  | nil => intro i j hij hj; simp at hj
  | cons k rest ih =>
    intro i j hij hj
    cases i with
    | zero =>
      cases j with
      | zero => exact le_refl _
      | succ j' =>
        have hj' : j' < rest.length := by simpa using hj
        simpa using hnd_head_le k rest h j' hj'
    | succ i' =>
      cases j with
      | zero => omega
      | succ j' =>
        have hj' : j' < rest.length := by simpa using hj
        have := ih (hnd_tail k rest h) i' j' (by omega) hj'
        simpa using this

theorem parts_at (keys : List (Int × Int)) (h : partsContiguousB keys = true) :
    ∀ i (hi : i < keys.length),
      (keys.get ⟨i, hi⟩).2 =
        (i : Int) - (firstIdxOfHeight keys (keys.get ⟨i, hi⟩).1 : Int) := by
  intro i hi
  unfold partsContiguousB at h
  rw [List.all_eq_true] at h
  have hm := h i (List.mem_range.mpr hi)
  rw [List.get?_eq_get hi] at hm
  simpa using hm

theorem firstIdxOfHeight_le (keys : List (Int × Int)) (hgt : Int) :
    ∀ j (hj : j < keys.length), (keys.get ⟨j, hj⟩).1 = hgt →
      firstIdxOfHeight keys hgt ≤ j := by
  induction keys with
  | nil => intro j hj; simp at hj
  | cons k rest ih =>
    intro j hj hh
    unfold firstIdxOfHeight
    by_cases hk : k.1 = hgt
    · rw [if_pos hk]; omega
    · rw [if_neg hk]
      cases j with
      | zero => exact absurd (by simpa using hh) hk
      | succ j' =>
        have := ih j' (by simpa using hj) (by simpa using hh)
        omega

theorem firstIdxOfHeight_spec (keys : List (Int × Int)) (hgt : Int) :
    firstIdxOfHeight keys hgt = keys.length ∨
      ∃ hlt : firstIdxOfHeight keys hgt < keys.length,
        (keys.get ⟨firstIdxOfHeight keys hgt, hlt⟩).1 = hgt := by
  induction keys with
  | nil => exact Or.inl rfl
  | cons k rest ih =>
    unfold firstIdxOfHeight
    split
    · rename_i hk
      exact Or.inr ⟨by simp, hk⟩
    · rename_i hk
      rcases ih with h | ⟨hlt, hget⟩
      · exact Or.inl (by simp [h])
      · exact Or.inr ⟨by simpa using Nat.succ_lt_succ hlt, by simpa using hget⟩

theorem lt_firstIdxOfHeight_ne (keys : List (Int × Int)) (hgt : Int) :
    ∀ i (hi : i < keys.length), i < firstIdxOfHeight keys hgt →
      (keys.get ⟨i, hi⟩).1 ≠ hgt := by
  induction keys with
  | nil => intro i hi; simp at hi
  | cons k rest ih =>
    intro i hi hlt
    unfold firstIdxOfHeight at hlt
    by_cases hk : k.1 = hgt
    · rw [if_pos hk] at hlt; omega
    · rw [if_neg hk] at hlt
      cases i with
      | zero => simpa using hk
      | succ i' =>
        have := ih i' (by simpa using hi) (by omega)
        simpa using this

theorem loopGo_found (bundles : List FinalizedBundle) (keys : List (Int × Int))
    (hdec : bundles.map (fun b => ParseSnapshotFromKey b.toKey) = keys.map Except.ok)
    (hnd : heightsNonDecreasingB keys = true)
    (hpc : partsContiguousB keys = true) (hgt : Int) :
    ∀ fuel (low high : Int) (j : Nat) (hj : j < keys.length),
      (high + 1 - low).toNat ≤ fuel →
      0 ≤ low → high < (keys.length : Int) →
      low ≤ (j : Int) → (j : Int) ≤ high →
      (keys.get ⟨j, hj⟩).1 = hgt →
      findBundleIdLoopGo bundles hgt fuel low high =
        .ok ((firstIdxOfHeight keys hgt : Nat) : Int) := by
  have hblen : bundles.length = keys.length := length_bundles_eq_keys _ _ hdec
  intro fuel
  induction fuel with
  | zero =>
    intro low high j hj hfuel h0 hhi hlj hjh hkey
    exfalso
    omega
  | succ f ih =>
    intro low high j hj hfuel h0 hhi hlj hjh hkey
    have hle : low ≤ high := le_trans hlj hjh
    simp only [findBundleIdLoopGo]
    rw [if_pos hle]
    set mid := (low + high) / 2 with hmid
    have hmlow : low ≤ mid := by omega
    have hmhigh : mid ≤ high := by omega
    have hmk : mid.toNat < keys.length := by omega
    have hmb : mid.toNat < bundles.length := by omega
    simp only [fetch_ok bundles mid mid.toNat hmb (by omega),
      decode_at bundles keys hdec mid.toNat hmb hmk]
    rcases lt_trichotomy (keys.get ⟨mid.toNat, hmk⟩).1 hgt with hcmp | hcmp | hcmp
    · rw [if_pos hcmp]
      have hjmid : (mid : Int) < (j : Int) := by
        by_contra hcon
        push_neg at hcon
        have hmono := hnd_mono keys hnd j mid.toNat (by omega) hmk
        rw [hkey] at hmono
        omega
      exact ih (mid + 1) high j hj (by omega) (by omega) hhi (by omega) hjh hkey
    · rw [if_neg (by omega), if_neg (by omega)]
      have hparts := parts_at keys hpc mid.toNat hmk
      rw [hcmp] at hparts
      rw [hparts]
      congr 1
      omega
    · rw [if_neg (by omega), if_pos hcmp]
      have hjmid : (j : Int) < mid := by
        by_contra hcon
        push_neg at hcon
        have hmono := hnd_mono keys hnd mid.toNat j (by omega) hj
        rw [hkey] at hmono
        omega
      exact ih low (mid - 1) j hj (by omega) h0 (by omega) hlj (by omega) hkey

theorem loopGo_absent (bundles : List FinalizedBundle) (keys : List (Int × Int))
    (hdec : bundles.map (fun b => ParseSnapshotFromKey b.toKey) = keys.map Except.ok)
    (hgt : Int)
    (habs : ∀ i (hi : i < keys.length), (keys.get ⟨i, hi⟩).1 ≠ hgt) :
    ∀ fuel (low high : Int),
      (high + 1 - low).toNat ≤ fuel →
      0 ≤ low → high < (keys.length : Int) →
      findBundleIdLoopGo bundles hgt fuel low high = .error .HeightNotFoundError := by
  have hblen : bundles.length = keys.length := length_bundles_eq_keys _ _ hdec
  intro fuel
  induction fuel with
  | zero => intro low high hfuel h0 hhi; rfl
  | succ f ih =>
    intro low high hfuel h0 hhi
    simp only [findBundleIdLoopGo]
    by_cases hle : low ≤ high
    · rw [if_pos hle]
      set mid := (low + high) / 2 with hmid
      have hmlow : low ≤ mid := by omega
      have hmhigh : mid ≤ high := by omega
      have hmk : mid.toNat < keys.length := by omega
      have hmb : mid.toNat < bundles.length := by omega
      simp only [fetch_ok bundles mid mid.toNat hmb (by omega),
        decode_at bundles keys hdec mid.toNat hmb hmk]
      rcases lt_trichotomy (keys.get ⟨mid.toNat, hmk⟩).1 hgt with hcmp | hcmp | hcmp
      · rw [if_pos hcmp]
        exact ih (mid + 1) high (by omega) (by omega) hhi
      · exact absurd hcmp (habs mid.toNat hmk)
      · rw [if_neg (by omega), if_pos hcmp]
        exact ih low (mid - 1) (by omega) h0 (by omega)
    · rw [if_neg hle]

/-- C3 counterexample: the one-bundle sequence with `toKey = "5/7"` has
non-decreasing heights and contains height 5, yet
`FindBundleIdForHeight(5)` returns bundle id −7 (the probe's id minus
its part index), which addresses no bundle at all, so no bundle with a
`toKey` decoding to `(5, 0)` is returned. -/
theorem kyveC3_cex :
    skewedBundles.map (fun b => ParseSnapshotFromKey b.toKey) =
      [((5 : Int), (7 : Int))].map Except.ok ∧
    heightsNonDecreasingB [((5 : Int), (7 : Int))] = true ∧
    skewedCollector.totalBundles = (skewedBundles.length : Int) ∧
    FindSnapshotBundleIdForHeight skewedCollector skewedBundles 5 = .ok (-7) ∧
    GetFinalizedBundleById skewedBundles (-7) = .error .NetworkError := by
  decide

/-- C3 (amended): for every nonempty bundle sequence whose decoded
`toKey`s have non-decreasing heights and whose part indices count each
bundle's distance from the first bundle of its height (the contiguity
the data model prescribes), with the collector's `totalBundles` equal
to the sequence length, `FindBundleIdForHeight(h)` returns the id `b`
of the first bundle of height `h` — its key decodes to `(h, 0)` and the
preceding bundle's height is strictly smaller (or `b = 0`) — for every
height `h` present in the sequence, and fails with
`HeightNotFoundError` for every `h` absent from it. -/
theorem kyveC3 (c : KyveSnapshotCollector) (bundles : List FinalizedBundle)
    (keys : List (Int × Int)) (hgt : Int)
    (hdec : bundles.map (fun b => ParseSnapshotFromKey b.toKey) = keys.map Except.ok)
    (hnd : heightsNonDecreasingB keys = true)
    (hpc : partsContiguousB keys = true)
    (htot : c.totalBundles = (bundles.length : Int))
    (hne : keys ≠ []) :
    ((∃ j, ∃ hj : j < keys.length, (keys.get ⟨j, hj⟩).1 = hgt) →
      ∃ b, ∃ hb : b < keys.length,
        FindSnapshotBundleIdForHeight c bundles hgt = .ok ((b : Nat) : Int) ∧
        keys.get ⟨b, hb⟩ = (hgt, 0) ∧
        (b = 0 ∨ ∃ hb1 : b - 1 < keys.length, (keys.get ⟨b - 1, hb1⟩).1 < hgt)) ∧
    ((∀ i (hi : i < keys.length), (keys.get ⟨i, hi⟩).1 ≠ hgt) →
      FindSnapshotBundleIdForHeight c bundles hgt = .error .HeightNotFoundError) := by
  have hblen : bundles.length = keys.length := length_bundles_eq_keys _ _ hdec
  have hlen0 : 0 < keys.length := List.length_pos.mpr hne
  have hlastb : keys.length - 1 < bundles.length := by omega
  have hlastk : keys.length - 1 < keys.length := by omega
  have hfetch := fetch_ok bundles (c.totalBundles - 1) (keys.length - 1) hlastb (by omega)
  have hdecl := decode_at bundles keys hdec (keys.length - 1) hlastb hlastk
  constructor
  · rintro ⟨j, hj, hkeyj⟩
    have hfle := firstIdxOfHeight_le keys hgt j hj hkeyj
    have hflt : firstIdxOfHeight keys hgt < keys.length := lt_of_le_of_lt hfle hj
    have hfget : (keys.get ⟨firstIdxOfHeight keys hgt, hflt⟩).1 = hgt := by
      rcases firstIdxOfHeight_spec keys hgt with h | ⟨hlt, hget⟩
      · exfalso; omega
      · exact hget
    refine ⟨firstIdxOfHeight keys hgt, hflt, ?_, ?_, ?_⟩
    · simp only [FindSnapshotBundleIdForHeight]
      by_cases hfast : hgt = c.latestAvailableHeight
      · rw [if_pos hfast]
        simp only [hfetch, hdecl]
        by_cases hlk : (keys.get ⟨keys.length - 1, hlastk⟩).1 = hgt
        · rw [if_pos hlk]
          have hparts := parts_at keys hpc (keys.length - 1) hlastk
          rw [hlk] at hparts
          rw [hparts]
          congr 1
          omega
        · rw [if_neg hlk]
          simp only [findBundleIdLoop]
          exact loopGo_found bundles keys hdec hnd hpc hgt _ 0 (c.totalBundles - 1) j hj
            (le_refl _) (by omega) (by omega) (by omega) (by omega) hkeyj
      · rw [if_neg hfast]
        simp only [findBundleIdLoop]
        exact loopGo_found bundles keys hdec hnd hpc hgt _ 0 (c.totalBundles - 1) j hj
          (le_refl _) (by omega) (by omega) (by omega) (by omega) hkeyj
    · have hparts := parts_at keys hpc (firstIdxOfHeight keys hgt) hflt
      rw [hfget] at hparts
      exact Prod.ext hfget (by omega)
    · by_cases hb0 : firstIdxOfHeight keys hgt = 0
      · exact Or.inl hb0
      · have hprev : firstIdxOfHeight keys hgt - 1 < keys.length := by omega
        refine Or.inr ⟨hprev, ?_⟩
        have hneq := lt_firstIdxOfHeight_ne keys hgt (firstIdxOfHeight keys hgt - 1) hprev
          (by omega)
        have hmono := hnd_mono keys hnd (firstIdxOfHeight keys hgt - 1)
          (firstIdxOfHeight keys hgt) (by omega) hflt
        rw [hfget] at hmono
        exact lt_of_le_of_ne hmono hneq
  · intro habs
    simp only [FindSnapshotBundleIdForHeight]
    by_cases hfast : hgt = c.latestAvailableHeight
    · rw [if_pos hfast]
      simp only [hfetch, hdecl]
      rw [if_neg (habs (keys.length - 1) hlastk)]
      simp only [findBundleIdLoop]
      exact loopGo_absent bundles keys hdec hgt habs _ 0 (c.totalBundles - 1)
        (le_refl _) (by omega) (by omega)
    · rw [if_neg hfast]
      simp only [findBundleIdLoop]
      exact loopGo_absent bundles keys hdec hgt habs _ 0 (c.totalBundles - 1)
        (le_refl _) (by omega) (by omega)

/-- C3 witness on the spec's ten-bundle sequence: height 2000 is found
at the first bundle of its run (id 2) with the claimed neighbour
property, and the absent height 2500 yields `HeightNotFoundError`. -/
theorem kyveC3_witness :
    FindSnapshotBundleIdForHeight sampleCollector specBundles 2000 = .ok 2 ∧
    specKeys.get ⟨2, by decide⟩ = (2000, 0) ∧
    (specKeys.get ⟨1, by decide⟩).1 < 2000 ∧
    FindSnapshotBundleIdForHeight sampleCollector specBundles 2500 =
      .error .HeightNotFoundError := by
  have hfound := kyveC3 sampleCollector specBundles specKeys 2000 rfl (by decide) (by decide)
    (by decide) (by decide)
  have habsent := kyveC3 sampleCollector specBundles specKeys 2500 rfl (by decide) (by decide)
    (by decide) (by decide)
  obtain ⟨b, hb, heq, hkey, hprev⟩ := hfound.1 ⟨2, by decide, by decide⟩
  have hb2 : b = 2 := by
    have h2 : FindSnapshotBundleIdForHeight sampleCollector specBundles 2000 = .ok 2 := by
      decide
    rw [heq] at h2
    have := Except.ok.inj h2
    omega
  subst hb2
  refine ⟨heq, hkey, ?_, habsent.2 (by decide)⟩
  rcases hprev with h0 | ⟨hb1, hlt⟩
  · exact absurd h0 (by decide)
  · exact hlt

/-- C6: when `FindBundleIdForHeight` is called with the latest available
height, it consults the last bundle (`id = totalBundles − 1`): if that
bundle's key decodes to the requested height with part index `p` the
result is `totalBundles − 1 − p` directly, and if the decoded height
differs the result is exactly that of the binary search over
`[0, totalBundles − 1]`. -/
theorem kyveC6 (c : KyveSnapshotCollector) (bundles : List FinalizedBundle)
    (height h p : Int) (fb : FinalizedBundle)
    (hfast : height = c.latestAvailableHeight)
    (hfetch : GetFinalizedBundleById bundles (c.totalBundles - 1) = .ok fb)
    (hkey : ParseSnapshotFromKey fb.toKey = .ok (h, p)) :
    (h = height → FindSnapshotBundleIdForHeight c bundles height =
        .ok (c.totalBundles - 1 - p)) ∧
    (h ≠ height → FindSnapshotBundleIdForHeight c bundles height =
        findBundleIdLoop bundles height 0 (c.totalBundles - 1)) := by
  simp only [FindSnapshotBundleIdForHeight]
  rw [if_pos hfast]
  simp only [hfetch, hkey]
  constructor
  · intro he
    rw [if_pos he]
  · intro he
    rw [if_neg he]

/-- C6 witness: on the spec's ten-bundle sequence at the latest height
4000, the last bundle's key `4000/3` gives id `10 − 1 − 3 = 6` without
searching. -/
theorem kyveC6_witness :
    FindSnapshotBundleIdForHeight sampleCollector specBundles 4000 =
      .ok (sampleCollector.totalBundles - 1 - 3) :=
  (kyveC6 sampleCollector specBundles 4000 4000 3 ⟨"4000/3"⟩ (by decide) (by decide)
    (by decide)).1 rfl

end Ksync
